import Mathlib

/-!
Shallow embedding of the orbit-overdrive client's state-synchronization core:
the Socket class (socket source file), the Graphics position cache
(graphics source file), and the Game keyboard dispatch (game.ts).

Dynamic JavaScript values reaching the message handler are modelled by the
inductive type JsValue; the mutable fields of the Socket, Graphics and Game
objects are collected in the record GameState, and each method becomes a
state-passing function.  Strings handed to connection.send are accumulated
in the sent field.
-/

/-- a JavaScript value as it can appear in a parsed JSON message or flow
through the untyped message-handling code.  NaN is a separate constructor
since it is not a rational. -/
inductive JsValue where
  | null
  | undefined
  | nan
  | jsBool (b : Bool)
  | num (q : ℚ)
  | str (s : String)
  | arr (elems : List JsValue)
  | obj (fields : List (String × JsValue))

/-- the SameValueZero comparison JavaScript Map uses for keys.  On
primitives it is value equality (with NaN equal to itself).  Objects and
arrays compare by reference identity; every object key reaching the cache
in this client comes from a fresh JSON.parse, so two object keys are never
the same reference, and the comparison is faithfully false. -/
def sameValueZero : JsValue → JsValue → Bool
  | .null, .null => true
  | .undefined, .undefined => true
  | .nan, .nan => true
  | .jsBool a, .jsBool b => a == b
  | .num a, .num b => a == b
  | .str a, .str b => a == b
  | _, _ => false

/-- a lookup in a JavaScript Map modelled as an insertion-ordered
association list (Map.prototype.get). -/
def mapGet {α : Type} : List (JsValue × α) → JsValue → Option α
  | [], _ => none
  | (k0, v0) :: rest, k => if sameValueZero k0 k then some v0 else mapGet rest k

/-- a write to a JavaScript Map (Map.prototype.set): an existing key keeps
its insertion position and original key object and gets the new value; a
new key is appended at the end. -/
def mapSet {α : Type} : List (JsValue × α) → JsValue → α → List (JsValue × α)
  | [], k, v => [(k, v)]
  | (k0, v0) :: rest, k, v =>
      if sameValueZero k0 k then (k0, v) :: rest else (k0, v0) :: mapSet rest k v

/-- a removal from a JavaScript Map (Map.prototype.delete); a missing key
leaves the map unchanged. -/
def mapDelete {α : Type} : List (JsValue × α) → JsValue → List (JsValue × α)
  | [], _ => []
  | (k0, v0) :: rest, k =>
      if sameValueZero k0 k then rest else (k0, v0) :: mapDelete rest k

/-- a membership test for a Map key (Map.prototype.has). -/
def hasKey {α : Type} : List (JsValue × α) → JsValue → Bool
  | [], _ => false
  | (k0, _) :: rest, k => sameValueZero k0 k || hasKey rest k

/-- the result of a JavaScript property read: either a value (undefined
when the property is missing) or a thrown TypeError. -/
inductive PropResult where
  | ok (v : JsValue)
  | thrown

/-- a field lookup in a parsed JSON object. -/
def lookupField : List (String × JsValue) → String → Option JsValue
  | [], _ => none
  | (k, v) :: rest, p => if k = p then some v else lookupField rest p

/-- a JavaScript property access o.p as the message handler performs it:
reading any property of null or undefined throws a TypeError; a missing
property of an object is undefined; the named data properties the handler
reads (type, player, playerId, players, id, x, y) are undefined on
primitives and arrays. -/
def getProp : JsValue → String → PropResult
  | .null, _ => .thrown
  | .undefined, _ => .thrown
  | .obj fs, p => .ok ((lookupField fs p).getD .undefined)
  | _, _ => .ok .undefined

/-- the ToNumber view of an operand of binary +.  Strings, arrays and
objects are mapped to NaN as a conservative approximation: JavaScript
would concatenate for string operands, but no code path of this client
adds a string, and no theorem below evaluates jsAdd on one. -/
def jsToNumber : JsValue → Option ℚ
  | .num q => some q
  | .nan => none
  | .null => some 0
  | .undefined => none
  | .jsBool b => some (if b then 1 else 0)
  | .str _ => none
  | .arr _ => none
  | .obj _ => none

/-- the JavaScript binary + on the numeric operands this client produces:
number + number adds, and any operand that converts to NaN (undefined,
NaN itself) makes the result NaN. -/
def jsAdd (a b : JsValue) : JsValue :=
  match jsToNumber a, jsToNumber b with
  | some x, some y => .num (x + y)
  | _, _ => .nan

/-- a hexadecimal digit for the JSON \u escape of a control character. -/
def hexDigit (n : Nat) : Char :=
  if n < 10 then Char.ofNat (48 + n) else Char.ofNat (87 + n)

/-- the escape JSON.stringify applies to one character of a string. -/
def escapeChar (c : Char) : String :=
  if c = Char.ofNat 34 then "\\\""
  else if c = Char.ofNat 92 then "\\\\"
  else if c = Char.ofNat 10 then "\\n"
  else if c = Char.ofNat 13 then "\\r"
  else if c = Char.ofNat 9 then "\\t"
  else if c = Char.ofNat 8 then "\\b"
  else if c = Char.ofNat 12 then "\\f"
  else if c.toNat < 32 then
    "\\u00" ++ String.singleton (hexDigit (c.toNat / 16)) ++ String.singleton (hexDigit (c.toNat % 16))
  else String.singleton c

/-- the double-quoted, escaped form JSON.stringify gives a string. -/
def jsonQuote (s : String) : String :=
  "\"" ++ String.join (s.toList.map escapeChar) ++ "\""

/-- the decimal text JSON.stringify gives a number.  Every number this
client ever serializes is an integral protocol code (the message type tag
and the action code), so only the integral case is exercised; the
non-integral branch is never reached by any theorem below. -/
def jsNumToString (q : ℚ) : String :=
  if q.den = 1 then
    (if q.num < 0 then "-" ++ Nat.repr q.num.natAbs else Nat.repr q.num.natAbs)
  else
    (if q.num < 0 then "-" ++ Nat.repr q.num.natAbs else Nat.repr q.num.natAbs)
      ++ "/" ++ Nat.repr q.den

/-- a test for the undefined value, used where JSON.stringify drops
object fields. -/
def isUndefined : JsValue → Bool
  | .undefined => true
  | _ => false

mutual

/-- the text JSON.stringify produces for a value.  Object fields whose
value is undefined are omitted; undefined and NaN inside an array would
serialize as null (neither occurs in a message this client sends). -/
def jsonStringify : JsValue → String
  | .null => "null"
  | .undefined => "null"
  | .nan => "null"
  | .jsBool b => if b then "true" else "false"
  | .num q => jsNumToString q
  | .str s => jsonQuote s
  | .arr l => "[" ++ String.intercalate "," (stringifyElems l) ++ "]"
  | .obj fs => "\x7b" ++ String.intercalate "," (stringifyFields fs) ++ "\x7d"

/-- the serialized elements of a JSON array. -/
def stringifyElems : List JsValue → List String
  | [] => []
  | v :: rest => jsonStringify v :: stringifyElems rest

/-- the serialized fields of a JSON object, dropping undefined-valued
fields exactly as JSON.stringify does. -/
def stringifyFields : List (String × JsValue) → List String
  | [] => []
  | (k, v) :: rest =>
      if isUndefined v then stringifyFields rest
      else (jsonQuote k ++ ":" ++ jsonStringify v) :: stringifyFields rest

end

/-- the PlayerAction enum of game.ts. -/
inductive PlayerAction where
  | FORWARD
  | RIGHT
  | LEFT
  | BACKWARD
deriving DecidableEq

/-- the numeric value of each PlayerAction enum member
(FORWARD = 0, RIGHT = 1, LEFT = 2, BACKWARD = 3). -/
def actionCode : PlayerAction → ℚ
  | .FORWARD => 0
  | .RIGHT => 1
  | .LEFT => 2
  | .BACKWARD => 3

/-- the mutable state of the client: the Socket fields open and id, the
Graphics position cache and program flag, the canvas pixel size, and the
list of frames handed to connection.send. -/
structure GameState where
  sockOpen : Bool
  sockId : JsValue
  positions : List (JsValue × List JsValue)
  program : Bool
  canvasWidth : Int
  canvasHeight : Int
  sent : List String

/-- the startingPosition field of Graphics: the fixed local triangle
shape [-0.05, 0.0, 0.0, 0.1, 0.05, 0.0]. -/
def startingPosition : List ℚ := [-(1/20), 0, 0, 1/10, 1/20, 0]

/-- the loop body of Graphics.updateTrianglePosition: walk the starting
shape two coordinates at a time, adding xOffset to each x and yOffset to
each y. -/
def buildUpdatedPosition : List ℚ → JsValue → JsValue → List JsValue
  | x :: y :: rest, xo, yo =>
      jsAdd (.num x) xo :: jsAdd (.num y) yo :: buildUpdatedPosition rest xo yo
  | _, _, _ => []

/-- Graphics.updateTrianglePosition: recompute the triangle for the given
offsets and store it in the positions Map under the given id, replacing
any previous entry wholesale. -/
def updateTrianglePosition (st : GameState) (id xOffset yOffset : JsValue) : GameState :=
  { st with positions := mapSet st.positions id (buildUpdatedPosition startingPosition xOffset yOffset) }

/-- Graphics.removeTriangle: delete the entry for the given id from the
positions Map. -/
def removeTriangle (st : GameState) (id : JsValue) : GameState :=
  { st with positions := mapDelete st.positions id }

/-- the onServerMessage callback Game installs on the Socket: it reads
payload.id, payload.x and payload.y and calls updateTrianglePosition.
The Bool records whether a TypeError was thrown (payload null or
undefined), to be caught by the try block of handleMessage. -/
def onServerMessage (st : GameState) (payload : JsValue) : GameState × Bool :=
  match getProp payload "id" with
  | .thrown => (st, true)
  | .ok idv =>
    match getProp payload "x" with
    | .thrown => (st, true)
    | .ok xv =>
      match getProp payload "y" with
      | .thrown => (st, true)
      | .ok yv => (updateTrianglePosition st idv xv yv, false)

/-- the onDisconnect callback Game installs on the Socket: it calls
removeTriangle with the received id. -/
def onDisconnect (st : GameState) (id : JsValue) : GameState :=
  removeTriangle st id

/-- the players.forEach loop of the UPDATE case: the callback runs on each
element in order; a thrown TypeError aborts the loop, keeping the
mutations made so far. -/
def forEachPlayer : GameState → List JsValue → GameState × Bool
  | st, [] => (st, false)
  | st, p :: rest =>
    match onServerMessage st p with
    | (st1, false) => forEachPlayer st1 rest
    | (st1, true) => (st1, true)

/-- the body of the try block of Socket.handleMessage, applied to the
value JSON.parse returned: switch on gameEvent.type with the numeric
ServerMessageType tags CONNECT = 0, DISCONNECT = 1, UPDATE = 2.  The Bool
records whether the body threw (to be caught and logged). -/
def handleMessageBody (st : GameState) (v : JsValue) : GameState × Bool :=
  match getProp v "type" with
  | .thrown => (st, true)
  | .ok t =>
    match t with
    | .num q =>
      if q == 0 then
        match getProp v "player" with
        | .thrown => (st, true)
        | .ok player =>
          match getProp player "id" with
          | .thrown => (st, true)
          | .ok idv => onServerMessage { st with sockId := idv } player
      else if q == 1 then
        match getProp v "playerId" with
        | .thrown => (st, true)
        | .ok pid => (onDisconnect st pid, false)
      else if q == 2 then
        match getProp v "players" with
        | .thrown => (st, true)
        | .ok ps =>
          match ps with
          | .arr l => forEachPlayer st l
          | _ => (st, true)
      else (st, false)
    | _ => (st, false)

/-- Socket.handleMessage: JSON.parse the raw frame (none models a parse
failure) and run the switch; the surrounding try/catch logs any thrown
error and keeps whatever state mutations happened before the throw, so the
handler itself never propagates an exception. -/
def handleMessage (st : GameState) (raw : Option JsValue) : GameState :=
  match raw with
  | none => st
  | some v => (handleMessageBody st v).fst

/-- Socket.handleOpen: mark the connection open. -/
def handleOpen (st : GameState) : GameState :=
  { st with sockOpen := true }

/-- Socket.handleClose: mark the connection closed. -/
def handleClose (st : GameState) : GameState :=
  { st with sockOpen := false }

/-- Socket.sendMessage: if the connection is not open, return without
doing anything; otherwise hand JSON.stringify of the message to
connection.send. -/
def sendMessage (st : GameState) (message : JsValue) : GameState :=
  if st.sockOpen then { st with sent := st.sent ++ [jsonStringify message] }
  else st

/-- Socket.sendAction: build the ClientMessage object with the numeric
tag ClientMessageType.MOVE = 0, the current (possibly undefined) id as
playerId, and the numeric action code, and pass it to sendMessage. -/
def sendAction (st : GameState) (moveAction : PlayerAction) : GameState :=
  sendMessage st (.obj [("type", .num 0), ("playerId", st.sockId), ("action", .num (actionCode moveAction))])

/-- Game.onKeyPress: the switch on event.key.  Arrow keys select the
corresponding PlayerAction and, the action being non-null, call
socket.sendAction; Escape calls socket.disconnect(), reported in the Bool
as a close request on the underlying connection; any other key leaves the
action null, so nothing is sent. -/
def onKeyPress (st : GameState) (key : String) : GameState × Bool :=
  if key = "ArrowUp" then (sendAction st .FORWARD, false)
  else if key = "ArrowDown" then (sendAction st .BACKWARD, false)
  else if key = "ArrowLeft" then (sendAction st .LEFT, false)
  else if key = "ArrowRight" then (sendAction st .RIGHT, false)
  else if key = "Escape" then (st, true)
  else (st, false)

/-- a WebGL call issued by the render pass, recorded as data. -/
inductive GLCmd where
  | viewport (w h : Int)
  | useProgram
  | clearColor (r g b a : ℚ)
  | clear
  | enableVertexAttribArray
  | bindBuffer
  | bufferData (points : List JsValue)
  | vertexAttribPointer
  | uniform4f (r g b a : ℚ)
  | drawArrays

/-- Math.round as JavaScript defines it: the nearest integer, ties toward
positive infinity. -/
def jsRound (q : ℚ) : Int :=
  Rat.floor (q + 1/2)

/-- Graphics.resizeCanvasToDisplaySize: compare the canvas pixel size with
the rounded CSS size times the device pixel ratio, resize if they differ,
and report whether a resize happened. -/
def resizeCanvasToDisplaySize (st : GameState) (dpr rectW rectH : ℚ) : GameState × Bool :=
  let displayWidth := jsRound (rectW * dpr)
  let displayHeight := jsRound (rectH * dpr)
  if st.canvasWidth ≠ displayWidth ∨ st.canvasHeight ≠ displayHeight then
    ({ st with canvasWidth := displayWidth, canvasHeight := displayHeight }, true)
  else (st, false)

/-- Graphics.drawTriangle: upload the points and issue the draw call. -/
def drawTriangleCmds (points : List JsValue) : List GLCmd :=
  [.bufferData points, .vertexAttribPointer, .uniform4f 0 (3/10) 1 1, .drawArrays]

/-- the positions.forEach loop of drawScene, emitting one triangle per
cache entry in insertion order. -/
def sceneTriangles : List (JsValue × List JsValue) → List GLCmd
  | [] => []
  | (_, pos) :: rest => drawTriangleCmds pos ++ sceneTriangles rest

/-- Graphics.drawScene: return immediately when the program is undefined;
otherwise resize the canvas, set up the frame, and draw every entry of the
positions Map.  The issued GL calls are returned alongside the state. -/
def drawScene (st : GameState) (dpr rectW rectH : ℚ) : GameState × List GLCmd :=
  if !st.program then (st, [])
  else
    let st1 := (resizeCanvasToDisplaySize st dpr rectW rectH).fst
    (st1,
      [.viewport st1.canvasWidth st1.canvasHeight, .useProgram,
       .clearColor 0 0 0 0, .clear, .enableVertexAttribArray, .bindBuffer]
        ++ sceneTriangles st1.positions)

/-- the SpaceShip record of game.ts: a well-formed entity as the protocol
declares it. -/
structure SpaceShip where
  id : String
  x : ℚ
  y : ℚ

/-- the parsed JSON form of a well-formed SpaceShip. -/
def SpaceShip.toJs (s : SpaceShip) : JsValue :=
  .obj [("id", .str s.id), ("x", .num s.x), ("y", .num s.y)]

/-- the parsed JSON form of a well-formed CONNECT server message
(ServerMessageType.CONNECT = 0). -/
def connectMsg (p : SpaceShip) : JsValue :=
  .obj [("type", .num 0), ("player", p.toJs)]

/-- the parsed JSON form of a well-formed DISCONNECT server message
(ServerMessageType.DISCONNECT = 1). -/
def disconnectMsg (pid : String) : JsValue :=
  .obj [("type", .num 1), ("playerId", .str pid)]

/-- the parsed JSON form of a well-formed UPDATE server message
(ServerMessageType.UPDATE = 2). -/
def updateMsg (l : List SpaceShip) : JsValue :=
  .obj [("type", .num 2), ("players", .arr (l.map SpaceShip.toJs))]

/-- the triangle stored in the cache for a well-formed ship: the starting
shape translated by the ship's position. -/
def shipPosition (s : SpaceShip) : List JsValue :=
  buildUpdatedPosition startingPosition (.num s.x) (.num s.y)

/-- the cache effect of one well-formed ship of an UPDATE batch. -/
def applyShip (m : List (JsValue × List JsValue)) (s : SpaceShip) : List (JsValue × List JsValue) :=
  mapSet m (.str s.id) (shipPosition s)

/-- the cache effect of a whole well-formed UPDATE batch, in order. -/
def applyBatch (m : List (JsValue × List JsValue)) (l : List SpaceShip) : List (JsValue × List JsValue) :=
  l.foldl applyShip m

/-- the last entry of a batch carrying the given identifier, if any. -/
def lastShipFor : List SpaceShip → String → Option SpaceShip
  | [], _ => none
  | s :: rest, id =>
    match lastShipFor rest id with
    | some t => some t
    | none => if s.id = id then some s else none

/-- Modelled from the spec: the outbound MOVE message as the wire-protocol
section of the specification writes it, with the string "MOVE" as its type
tag.  This is the specification-side reading that claim C1 asserts the
code serializes; it exists only to be compared against the message the
code actually builds. -/
def specMoveMessage (playerId : String) (code : ℚ) : JsValue :=
  .obj [("type", .str "MOVE"), ("playerId", .str playerId), ("action", .num code)]

/-! ## Basic facts about SameValueZero and the Map operations -/

/-- a positive SameValueZero comparison only ever relates structurally
equal values (the converse fails for objects and arrays, which compare by
reference). -/
theorem eq_of_svz {a b : JsValue} (h : sameValueZero a b = true) : a = b := by
  cases a <;> cases b <;> simp_all [sameValueZero]

/-- SameValueZero is reflexive on string keys. -/
theorem svz_str_self (a : String) : sameValueZero (.str a) (.str a) = true := by
  simp [sameValueZero]

/-- SameValueZero on two string keys is their string equality. -/
theorem svz_str_str (a b : String) : sameValueZero (.str a) (.str b) = (a == b) := rfl

/-- a key absent from a map looks up to none. -/
theorem mapGet_eq_none_of_not_hasKey {α : Type} (m : List (JsValue × α)) (k : JsValue)
    (h : hasKey m k = false) : mapGet m k = none := by
  induction m with
  | nil => rfl
  | cons e rest ih =>
    obtain ⟨k0, v0⟩ := e
    simp [hasKey] at h
    simp [mapGet, h.1, ih h.2]

/-- a lookup of the key just written returns the written value. -/
theorem mapGet_mapSet_self {α : Type} (m : List (JsValue × α)) (k : JsValue) (v : α)
    (hself : sameValueZero k k = true) : mapGet (mapSet m k v) k = some v := by
  induction m with
  | nil => simp [mapSet, mapGet, hself]
  | cons e rest ih =>
    obtain ⟨k0, v0⟩ := e
    by_cases h0 : sameValueZero k0 k = true
    · cases eq_of_svz h0
      simp [mapSet, mapGet, hself]
    · simp at h0
      simp [mapSet, mapGet, h0, ih]

/-- a write leaves the lookup of every other key unchanged. -/
theorem mapGet_mapSet_ne {α : Type} (m : List (JsValue × α)) {k k' : JsValue} (v : α)
    (hne : sameValueZero k k' = false) : mapGet (mapSet m k v) k' = mapGet m k' := by
  induction m with
  | nil => simp [mapSet, mapGet, hne]
  | cons e rest ih =>
    obtain ⟨k0, v0⟩ := e
    by_cases h0 : sameValueZero k0 k = true
    · cases eq_of_svz h0
      simp [mapSet, mapGet, h0, hne]
    · simp at h0
      simp [mapSet, mapGet, h0, ih]

/-- a second write to the same key overwrites the first. -/
theorem mapSet_absorb {α : Type} (m : List (JsValue × α)) (k : JsValue) (v w : α)
    (hself : sameValueZero k k = true) :
    mapSet (mapSet m k v) k w = mapSet m k w := by
  induction m with
  | nil => simp [mapSet, hself]
  | cons e rest ih =>
    obtain ⟨k0, v0⟩ := e
    by_cases h0 : sameValueZero k0 k = true
    · simp [mapSet, h0]
    · simp at h0
      simp [mapSet, h0, ih]

/-- writes to distinct keys commute when the first key is already present
(so that neither write can append past the other). -/
theorem mapSet_comm {α : Type} (m : List (JsValue × α)) {k1 k2 : JsValue} (v1 v2 : α)
    (hk : hasKey m k1 = true) (hne : sameValueZero k1 k2 = false) :
    mapSet (mapSet m k1 v1) k2 v2 = mapSet (mapSet m k2 v2) k1 v1 := by
  induction m with
  | nil => simp [hasKey] at hk
  | cons e rest ih =>
    obtain ⟨k0, v0⟩ := e
    by_cases h1 : sameValueZero k0 k1 = true
    · cases eq_of_svz h1
      simp [mapSet, h1, hne]
    · simp at h1
      by_cases h2 : sameValueZero k0 k2 = true
      · cases eq_of_svz h2
        simp [mapSet, h1, h2]
      · simp at h2
        simp [hasKey, h1] at hk
        simp [mapSet, h1, h2, ih hk]

/-- a write to the exact same value already stored is a no-op on the whole
list. -/
theorem mapSet_same {α : Type} (m : List (JsValue × α)) (k : JsValue) (v : α)
    (h : mapGet m k = some v) : mapSet m k v = m := by
  induction m with
  | nil => simp [mapGet] at h
  | cons e rest ih =>
    obtain ⟨k0, v0⟩ := e
    by_cases h0 : sameValueZero k0 k = true
    · simp [mapGet, h0] at h
      simp [mapSet, h0, h]
    · simp at h0
      simp [mapGet, h0] at h
      simp [mapSet, h0, ih h]

/-- writing a key makes it present. -/
theorem hasKey_mapSet_self {α : Type} (m : List (JsValue × α)) (k : JsValue) (v : α)
    (hself : sameValueZero k k = true) : hasKey (mapSet m k v) k = true := by
  induction m with
  | nil => simp [mapSet, hasKey, hself]
  | cons e rest ih =>
    obtain ⟨k0, v0⟩ := e
    by_cases h0 : sameValueZero k0 k = true
    · simp [mapSet, hasKey, h0]
    · simp at h0
      simp [mapSet, hasKey, h0, ih]

/-- a write never removes a present key. -/
theorem hasKey_mapSet_mono {α : Type} (m : List (JsValue × α)) (k k' : JsValue) (v : α)
    (h : hasKey m k = true) : hasKey (mapSet m k' v) k = true := by
  induction m with
  | nil => simp [hasKey] at h
  | cons e rest ih =>
    obtain ⟨k0, v0⟩ := e
    simp [hasKey] at h
    by_cases h0 : sameValueZero k0 k' = true
    · simp [mapSet, hasKey, h0]
      rcases h with h | h
      · exact Or.inl h
      · exact Or.inr h
    · simp at h0
      rcases h with h | h
      · simp [mapSet, hasKey, h0, h]
      · simp [mapSet, hasKey, h0, ih h]

/-- deleting a key leaves the lookup of every other key unchanged. -/
theorem mapGet_mapDelete_ne {α : Type} (m : List (JsValue × α)) {k k' : JsValue}
    (hne : sameValueZero k k' = false) : mapGet (mapDelete m k) k' = mapGet m k' := by
  induction m with
  | nil => rfl
  | cons e rest ih =>
    obtain ⟨k0, v0⟩ := e
    by_cases h0 : sameValueZero k0 k = true
    · cases eq_of_svz h0
      simp [mapDelete, mapGet, h0, hne]
    · simp at h0
      simp [mapDelete, mapGet, h0, ih]

/-- deleting an absent key leaves the map unchanged. -/
theorem mapDelete_of_not_hasKey {α : Type} (m : List (JsValue × α)) (k : JsValue)
    (h : hasKey m k = false) : mapDelete m k = m := by
  induction m with
  | nil => rfl
  | cons e rest ih =>
    obtain ⟨k0, v0⟩ := e
    simp [hasKey] at h
    simp [mapDelete, h.1, ih h.2]

/-- a Map built by the cache operations has pairwise distinct keys; the
predicate states that invariant for an arbitrary list. -/
def distinctKeys {α : Type} : List (JsValue × α) → Bool
  | [] => true
  | (k0, _) :: rest => !hasKey rest k0 && distinctKeys rest

/-- under the distinct-keys invariant, deleting a key makes it absent. -/
theorem mapGet_mapDelete_self {α : Type} (m : List (JsValue × α)) (k : JsValue)
    (h : distinctKeys m = true) : mapGet (mapDelete m k) k = none := by
  induction m with
  | nil => rfl
  | cons e rest ih =>
    obtain ⟨k0, v0⟩ := e
    simp [distinctKeys] at h
    by_cases h0 : sameValueZero k0 k = true
    · cases eq_of_svz h0
      simp [mapDelete, h0]
      exact mapGet_eq_none_of_not_hasKey rest k h.1
    · simp at h0
      simp [mapDelete, mapGet, h0, ih h.2]

/-! ## Evaluation of the message handler on well-formed protocol events -/

/-- the update callback on a well-formed ship payload stores exactly the
translated triangle under the ship's id. -/
theorem onServerMessage_wf (st : GameState) (s : SpaceShip) :
    onServerMessage st s.toJs =
      ({ st with positions := applyShip st.positions s }, false) := by
  simp [onServerMessage, SpaceShip.toJs, getProp, lookupField,
    updateTrianglePosition, applyShip, shipPosition]

/-- the forEach loop over well-formed ships folds the upserts left to
right and never throws. -/
theorem forEachPlayer_wf (st : GameState) (l : List SpaceShip) :
    forEachPlayer st (l.map SpaceShip.toJs) =
      ({ st with positions := applyBatch st.positions l }, false) := by
  induction l generalizing st with
  | nil => rfl
  | cons s rest ih =>
    simp [forEachPlayer, onServerMessage_wf, ih, applyBatch, List.foldl]

/-- a well-formed CONNECT event overwrites the local identity with the
carried player's id and upserts that player into the cache. -/
theorem handleMessage_connect (st : GameState) (p : SpaceShip) :
    handleMessage st (some (connectMsg p)) =
      { st with sockId := .str p.id, positions := applyShip st.positions p } := by
  have h := onServerMessage_wf { st with sockId := JsValue.str p.id } p
  simp [handleMessage, handleMessageBody, connectMsg, getProp, lookupField,
    SpaceShip.toJs] at h ⊢
  simp [applyShip, shipPosition, SpaceShip.toJs]
  exact congrArg Prod.fst h

/-- a well-formed DISCONNECT event removes the carried id from the
cache. -/
theorem handleMessage_disconnect (st : GameState) (pid : String) :
    handleMessage st (some (disconnectMsg pid)) =
      { st with positions := mapDelete st.positions (.str pid) } := by
  simp [handleMessage, handleMessageBody, disconnectMsg, getProp, lookupField,
    onDisconnect, removeTriangle]

/-- a well-formed UPDATE event folds every carried ship into the cache in
sequence order. -/
theorem handleMessage_update (st : GameState) (l : List SpaceShip) :
    handleMessage st (some (updateMsg l)) =
      { st with positions := applyBatch st.positions l } := by
  have h := forEachPlayer_wf st l
  simp [handleMessage, handleMessageBody, updateMsg, getProp, lookupField]
  rw [h]

/-! ## Characterization of UPDATE batches -/

/-- a membership test for an identifier among the ships of a batch. -/
def batchHasId : List SpaceShip → String → Bool
  | [], _ => false
  | s :: rest, id => s.id == id || batchHasId rest id

/-- a batch with no entry for an identifier has no last entry for it. -/
theorem lastShipFor_eq_none {l : List SpaceShip} {id : String}
    (h : batchHasId l id = false) : lastShipFor l id = none := by
  induction l with
  | nil => rfl
  | cons s rest ih =>
    simp [batchHasId] at h
    simp [lastShipFor, ih h.2, h.1]

/-- the pointwise effect of a whole batch on the cache: an identifier
carried by the batch maps to the triangle of its last entry, and every
other identifier keeps its previous binding. -/
theorem mapGet_applyBatch (m : List (JsValue × List JsValue)) (l : List SpaceShip) (id : String) :
    mapGet (applyBatch m l) (.str id) =
      (match lastShipFor l id with
       | some s => some (shipPosition s)
       | none => mapGet m (.str id)) := by
  induction l generalizing m with
  | nil => rfl
  | cons s rest ih =>
    show mapGet (applyBatch (applyShip m s) rest) (.str id) = _
    rw [ih]
    cases hrest : lastShipFor rest id with
    | some t => simp [lastShipFor, hrest]
    | none =>
      by_cases hid : s.id = id
      · cases hid
        simp [lastShipFor, hrest, applyShip,
          mapGet_mapSet_self _ _ _ (svz_str_self s.id)]
      · have hne : sameValueZero (.str s.id) (.str id) = false := by
          simp [sameValueZero, hid]
        simp [lastShipFor, hrest, hid, applyShip, mapGet_mapSet_ne _ _ hne]

/-- keys already present survive a whole batch. -/
theorem hasKey_applyBatch_mono (m : List (JsValue × List JsValue)) (l : List SpaceShip)
    (k : JsValue) (h : hasKey m k = true) : hasKey (applyBatch m l) k = true := by
  induction l generalizing m with
  | nil => exact h
  | cons s rest ih =>
    exact ih (applyShip m s) (hasKey_mapSet_mono _ _ _ _ h)

/-- an identifier absent from the batch keeps its binding through the
batch. -/
theorem mapGet_applyBatch_not_in_batch (m : List (JsValue × List JsValue))
    (l : List SpaceShip) (id : String) (h : batchHasId l id = false) :
    mapGet (applyBatch m l) (.str id) = mapGet m (.str id) := by
  rw [mapGet_applyBatch, lastShipFor_eq_none h]

/-- re-seeding a key that the batch is going to overwrite anyway does not
change the batch's result, provided the key is already present. -/
theorem applyBatch_absorb (l : List SpaceShip) (x : List (JsValue × List JsValue))
    (id : String) (v : List JsValue)
    (hx : hasKey x (.str id) = true) (hb : batchHasId l id = true) :
    applyBatch (mapSet x (.str id) v) l = applyBatch x l := by
  induction l generalizing x v with
  | nil => simp [batchHasId] at hb
  | cons s rest ih =>
    by_cases hsid : s.id = id
    · cases hsid
      show applyBatch (applyShip (mapSet x (.str s.id) v) s) rest = applyBatch (applyShip x s) rest
      rw [show applyShip (mapSet x (.str s.id) v) s = applyShip x s from
        mapSet_absorb x (.str s.id) v _ (svz_str_self s.id)]
    · simp [batchHasId, hsid] at hb
      have hne : sameValueZero (.str id) (.str s.id) = false := by
        simp [sameValueZero]
        exact fun h => absurd h.symm hsid
      show applyBatch (applyShip (mapSet x (.str id) v) s) rest = applyBatch (applyShip x s) rest
      rw [show applyShip (mapSet x (.str id) v) s = mapSet (applyShip x s) (.str id) v from
        mapSet_comm x _ _ hx hne]
      exact ih (applyShip x s) v (hasKey_mapSet_mono _ _ _ _ hx) hb

/-- applying the same batch twice gives the same cache, entry for entry
and in the same order, as applying it once. -/
theorem applyBatch_idem (l : List SpaceShip) (m : List (JsValue × List JsValue)) :
    applyBatch (applyBatch m l) l = applyBatch m l := by
  induction l generalizing m with
  | nil => rfl
  | cons s rest ih =>
    show applyBatch (applyShip (applyBatch (applyShip m s) rest) s) rest = _
    by_cases hb : batchHasId rest s.id = true
    · have hx : hasKey (applyBatch (applyShip m s) rest) (.str s.id) = true :=
        hasKey_applyBatch_mono _ _ _ (hasKey_mapSet_self _ _ _ (svz_str_self s.id))
      show applyBatch (mapSet (applyBatch (applyShip m s) rest) (.str s.id) (shipPosition s)) rest = _
      rw [applyBatch_absorb rest _ _ _ hx hb]
      exact ih (applyShip m s)
    · simp at hb
      have hget : mapGet (applyBatch (applyShip m s) rest) (.str s.id) = some (shipPosition s) := by
        rw [mapGet_applyBatch_not_in_batch _ _ _ hb]
        exact mapGet_mapSet_self _ _ _ (svz_str_self s.id)
      show applyBatch (mapSet (applyBatch (applyShip m s) rest) (.str s.id) (shipPosition s)) rest = _
      rw [mapSet_same _ _ _ hget]
      exact ih (applyShip m s)

/-! ## Concrete states used by counterexamples and witnesses -/

/-- the state of a fresh client: connection not yet open, identity unset,
cache empty, nothing sent. -/
def initialState : GameState where
  sockOpen := false
  sockId := .undefined
  positions := []
  program := true
  canvasWidth := 0
  canvasHeight := 0
  sent := []

/-- a client whose connection is open and that has adopted identity p1,
with p1's ship cached at the origin. -/
def openP1State : GameState where
  sockOpen := true
  sockId := .str "p1"
  positions := [(.str "p1", shipPosition ⟨"p1", 0, 0⟩)]
  program := true
  canvasWidth := 300
  canvasHeight := 150
  sent := []

/-! ## Claim C1 -/

/-- C1 counterexample: with identity p1 and the channel open, the frame
sendAction hands to the transport for the forward action carries the
numeric type tag 0 (the value of the ClientMessageType.MOVE enum member),
so it is not the serialization of the message the spec writes with the
string "MOVE" as its type field. -/
theorem sendAction_move_tag_is_numeric_cex :
    (sendAction openP1State .FORWARD).sent
      = ["\x7b\"type\":0,\"playerId\":\"p1\",\"action\":0\x7d"]
    ∧ (sendAction openP1State .FORWARD).sent
      ≠ [jsonStringify (specMoveMessage "p1" 0)] := by
  refine ⟨rfl, ?_⟩
  intro h
  simp only [show (sendAction openP1State .FORWARD).sent
      = ["\x7b\"type\":0,\"playerId\":\"p1\",\"action\":0\x7d"] from rfl,
    show jsonStringify (specMoveMessage "p1" 0)
      = "\x7b\"type\":\"MOVE\",\"playerId\":\"p1\",\"action\":0\x7d" from rfl] at h
  exact absurd (List.head_eq_of_cons_eq h) (by decide)

/-- C1 amended: for every action sent while the local identity is the
string p and the channel is open, the frame handed to the transport is the
serialization of the object with numeric type tag 0, playerId p and the
numeric action code — the type field is the enum code 0, not the string
"MOVE". -/
theorem sendAction_serializes_numeric_move_tag (st : GameState) (a : PlayerAction) (p : String)
    (hopen : st.sockOpen = true) (hid : st.sockId = JsValue.str p) :
    (sendAction st a).sent =
      st.sent ++ [jsonStringify (JsValue.obj
        [("type", JsValue.num 0), ("playerId", JsValue.str p), ("action", JsValue.num (actionCode a))])]
    ∧ (sendAction st a).sent =
      st.sent ++ ["\x7b\"type\":0,\"playerId\":" ++ jsonQuote p ++ ",\"action\":"
        ++ jsNumToString (actionCode a) ++ "\x7d"] := by
  have hmsg : (sendAction st a).sent =
      st.sent ++ [jsonStringify (JsValue.obj
        [("type", JsValue.num 0), ("playerId", JsValue.str p), ("action", JsValue.num (actionCode a))])] := by
    simp [sendAction, sendMessage, hopen, hid]
  refine ⟨hmsg, ?_⟩
  rw [hmsg]
  refine congrArg (fun s => st.sent ++ [s]) ?_
  have h0 : jsNumToString 0 = "0" := rfl
  have ht : jsonQuote "type" = "\"type\"" := rfl
  have hp : jsonQuote "playerId" = "\"playerId\"" := rfl
  have ha : jsonQuote "action" = "\"action\"" := rfl
  apply String.ext
  simp [jsonStringify, stringifyFields, isUndefined, String.intercalate,
    String.intercalate.go, h0, ht, hp, ha, String.data_append]

/-- C1 witness: the amended statement evaluated for the forward action
from the open p1 state. -/
theorem sendAction_serializes_numeric_move_tag_witness :
    (sendAction openP1State .FORWARD).sent =
      openP1State.sent ++ [jsonStringify (JsValue.obj
        [("type", JsValue.num 0), ("playerId", JsValue.str "p1"),
         ("action", JsValue.num (actionCode .FORWARD))])]
    ∧ (sendAction openP1State .FORWARD).sent =
      openP1State.sent ++ ["\x7b\"type\":0,\"playerId\":" ++ jsonQuote "p1" ++ ",\"action\":"
        ++ jsNumToString (actionCode .FORWARD) ++ "\x7d"] :=
  sendAction_serializes_numeric_move_tag openP1State .FORWARD "p1" rfl rfl

/-! ## Claim C2 -/

/-- C2 counterexample: after a CONNECT for p1 followed by a CONNECT for
p2, the local identity is p2, not the first-adopted p1 — the CONNECT case
of handleMessage assigns the id field unconditionally, so identity is not
immutable once set. -/
theorem connect_identity_not_immutable_cex :
    (handleMessage (handleMessage initialState (some (connectMsg ⟨"p1", 0, 0⟩)))
        (some (connectMsg ⟨"p2", 0, 1⟩))).sockId = JsValue.str "p2"
    ∧ JsValue.str "p2" ≠ JsValue.str "p1" := by
  refine ⟨rfl, fun h => ?_⟩
  exact absurd (JsValue.str.inj h) (by decide)

/-- C2 amended: every well-formed CONNECT event overwrites the local
identity with the carried player's id, whether or not an identity was
already set; after a sequence of CONNECT events the identity is that of
the last one processed. -/
theorem connect_overwrites_identity (st : GameState) (p : SpaceShip) :
    (handleMessage st (some (connectMsg p))).sockId = JsValue.str p.id := by
  rw [handleMessage_connect]

/-! ## Claim C3 -/

/-- a parseable message whose type tag is the CONNECT code but whose
player payload is not an entity object (here the number 5). -/
def malformedConnect : JsValue := .obj [("type", .num 0), ("player", .num 5)]

/-- C3 counterexample: the malformed-but-parseable CONNECT above is not a
protocol event, yet processing it from the connected p1 state clears the
local identity to undefined and inserts a garbage cache entry under the
key undefined — malformed payloads with a known tag are not inert. -/
theorem malformed_connect_payload_mutates_state_cex :
    (handleMessage openP1State (some malformedConnect)).sockId = JsValue.undefined
    ∧ openP1State.sockId = JsValue.str "p1"
    ∧ JsValue.undefined ≠ JsValue.str "p1"
    ∧ mapGet (handleMessage openP1State (some malformedConnect)).positions JsValue.undefined
        = some [JsValue.nan, JsValue.nan, JsValue.nan, JsValue.nan, JsValue.nan, JsValue.nan]
    ∧ mapGet openP1State.positions JsValue.undefined = none := by
  exact ⟨rfl, rfl, fun h => JsValue.noConfusion h, rfl, rfl⟩

/-- C3 amended: an unparsable frame, and any parseable frame whose type
tag is not one of the known numeric tags 0, 1, 2, leave the whole client
state (cache and identity included) unchanged, and the handler returns
normally for every input — but a parseable frame with a known tag and a
malformed payload may mutate state, per the counterexample. -/
theorem unparsable_or_unknown_tag_inert (st : GameState) (v : JsValue)
    (h : ∀ q : ℚ, getProp v "type" = PropResult.ok (JsValue.num q) → q ≠ 0 ∧ q ≠ 1 ∧ q ≠ 2) :
    handleMessage st none = st ∧ handleMessage st (some v) = st := by
  refine ⟨rfl, ?_⟩
  show (handleMessageBody st v).fst = st
  unfold handleMessageBody
  cases hgp : getProp v "type" with
  | thrown => rfl
  | ok t =>
    cases t with
    | num q =>
      obtain ⟨h0, h1, h2⟩ := h q hgp
      have e0 : (q == (0 : ℚ)) = false := beq_eq_false_iff_ne.mpr h0
      have e1 : (q == (1 : ℚ)) = false := beq_eq_false_iff_ne.mpr h1
      have e2 : (q == (2 : ℚ)) = false := beq_eq_false_iff_ne.mpr h2
      simp [e0, e1, e2]
    | null => rfl
    | undefined => rfl
    | nan => rfl
    | jsBool b => rfl
    | str s => rfl
    | arr l => rfl
    | obj fs => rfl

/-- C3 witness: the amended statement evaluated on a frame with the
unknown numeric tag 5. -/
theorem unparsable_or_unknown_tag_inert_witness :
    handleMessage openP1State none = openP1State
    ∧ handleMessage openP1State (some (JsValue.obj [("type", JsValue.num 5)])) = openP1State := by
  refine unparsable_or_unknown_tag_inert openP1State _ ?_
  intro q hq
  simp [getProp, lookupField] at hq
  subst hq
  refine ⟨by norm_num, by norm_num, by norm_num⟩

/-! ## Claim C4 -/

/-- a fold of sends over a closed channel never changes the state. -/
theorem foldl_sendMessage_of_closed (st : GameState) (h : st.sockOpen = false)
    (msgs : List JsValue) : msgs.foldl sendMessage st = st := by
  induction msgs with
  | nil => rfl
  | cons m rest ih => simp [List.foldl, sendMessage, h, ih]

/-- C4: sending on a channel that is not open is a silent no-op — the
state (and in particular the list of transmitted frames) is unchanged —
and after handleClose any number of sends transmit nothing. -/
theorem send_while_closed_is_noop (st : GameState) (m : JsValue) (msgs : List JsValue)
    (h : st.sockOpen = false) :
    sendMessage st m = st
    ∧ msgs.foldl sendMessage (handleClose st) = handleClose st
    ∧ (msgs.foldl sendMessage (handleClose st)).sent = st.sent := by
  have h2 := foldl_sendMessage_of_closed (handleClose st) rfl msgs
  exact ⟨by simp [sendMessage, h], h2, by rw [h2]; rfl⟩

/-- C4 witness: the no-op evaluated on the fresh closed state with two
queued send attempts. -/
theorem send_while_closed_is_noop_witness :
    sendMessage initialState (JsValue.str "x") = initialState
    ∧ [JsValue.str "x", JsValue.num 1].foldl sendMessage (handleClose initialState)
        = handleClose initialState
    ∧ ([JsValue.str "x", JsValue.num 1].foldl sendMessage (handleClose initialState)).sent
        = initialState.sent :=
  send_while_closed_is_noop initialState (JsValue.str "x") [JsValue.str "x", JsValue.num 1] rfl

/-! ## Claim C5 -/

/-- C5: processing a well-formed UPDATE event upserts every carried
entity, wholly replacing any prior entry: afterwards an identifier carried
by the batch maps to the triangle computed from its last entry in the
batch (last-write-wins for duplicates), and an identifier not carried by
the batch keeps its previous binding. -/
theorem update_upserts_last_write_wins (st : GameState) (l : List SpaceShip) (id : String) :
    mapGet (handleMessage st (some (updateMsg l))).positions (JsValue.str id) =
      (match lastShipFor l id with
       | some s => some (shipPosition s)
       | none => mapGet st.positions (JsValue.str id)) := by
  rw [handleMessage_update]
  exact mapGet_applyBatch st.positions l id

/-! ## Claim C6 -/

/-- C6: processing a DISCONNECT event (which calls removeTriangle) leaves
no entry for the carried identifier, leaves every other identifier's entry
unchanged, and is a state-wide no-op when the identifier is absent. -/
theorem disconnect_removes_exactly_one (st : GameState) (pid : String)
    (h : distinctKeys st.positions = true) :
    mapGet (handleMessage st (some (disconnectMsg pid))).positions (JsValue.str pid) = none
    ∧ (∀ id' : String, id' ≠ pid →
        mapGet (handleMessage st (some (disconnectMsg pid))).positions (JsValue.str id')
          = mapGet st.positions (JsValue.str id'))
    ∧ (hasKey st.positions (JsValue.str pid) = false →
        handleMessage st (some (disconnectMsg pid)) = st) := by
  rw [handleMessage_disconnect]
  refine ⟨mapGet_mapDelete_self _ _ h, fun id' hne => ?_, fun habs => ?_⟩
  · refine mapGet_mapDelete_ne _ ?_
    simp [sameValueZero]
    exact fun hh => absurd hh.symm hne
  · rw [mapDelete_of_not_hasKey _ _ habs]

/-- C6 witness: disconnecting p1 from the connected p1 state empties its
entry and leaves the (absent) p2 binding unchanged. -/
theorem disconnect_removes_exactly_one_witness :
    mapGet (handleMessage openP1State (some (disconnectMsg "p1"))).positions (JsValue.str "p1") = none
    ∧ mapGet (handleMessage openP1State (some (disconnectMsg "p1"))).positions (JsValue.str "p2")
        = mapGet openP1State.positions (JsValue.str "p2") := by
  have h := disconnect_removes_exactly_one openP1State "p1" (by decide)
  exact ⟨h.1, h.2.1 "p2" (by decide)⟩

/-! ## Claim C7 -/

/-- C7: processing the same well-formed UPDATE event twice leaves the
client state — the cache entry for entry and in the same insertion order —
identical to processing it once. -/
theorem update_event_idempotent (st : GameState) (l : List SpaceShip) :
    handleMessage (handleMessage st (some (updateMsg l))) (some (updateMsg l))
      = handleMessage st (some (updateMsg l)) := by
  simp only [handleMessage_update]
  show ({ st with positions := applyBatch (applyBatch st.positions l) l } : GameState)
      = { st with positions := applyBatch st.positions l }
  exact congrArg (fun ps => { st with positions := ps }) (applyBatch_idem l st.positions)

/-! ## Claim C8 -/

/-- C8: the key-to-action table of onKeyPress is exactly ArrowUp to
forward (code 0), ArrowRight to right (code 1), ArrowLeft to left
(code 2), ArrowDown to backward (code 3); Escape requests disconnect and
produces no action; and every other key produces no action, sends nothing
and changes nothing. -/
theorem key_to_action_table (st : GameState) (key : String)
    (h : key ≠ "ArrowUp" ∧ key ≠ "ArrowDown" ∧ key ≠ "ArrowLeft" ∧ key ≠ "ArrowRight"
      ∧ key ≠ "Escape") :
    onKeyPress st "ArrowUp" = (sendAction st .FORWARD, false) ∧ actionCode .FORWARD = 0
    ∧ onKeyPress st "ArrowRight" = (sendAction st .RIGHT, false) ∧ actionCode .RIGHT = 1
    ∧ onKeyPress st "ArrowLeft" = (sendAction st .LEFT, false) ∧ actionCode .LEFT = 2
    ∧ onKeyPress st "ArrowDown" = (sendAction st .BACKWARD, false) ∧ actionCode .BACKWARD = 3
    ∧ onKeyPress st "Escape" = (st, true)
    ∧ onKeyPress st key = (st, false) := by
  obtain ⟨h1, h2, h3, h4, h5⟩ := h
  refine ⟨rfl, rfl, by simp [onKeyPress], rfl, by simp [onKeyPress], rfl,
    by simp [onKeyPress], rfl, by simp [onKeyPress], ?_⟩
  simp [onKeyPress, h1, h2, h3, h4, h5]

/-- C8 witness: the table evaluated with the unmapped key q. -/
theorem key_to_action_table_witness :
    onKeyPress initialState "ArrowUp" = (sendAction initialState .FORWARD, false)
    ∧ actionCode .FORWARD = 0
    ∧ onKeyPress initialState "ArrowRight" = (sendAction initialState .RIGHT, false)
    ∧ actionCode .RIGHT = 1
    ∧ onKeyPress initialState "ArrowLeft" = (sendAction initialState .LEFT, false)
    ∧ actionCode .LEFT = 2
    ∧ onKeyPress initialState "ArrowDown" = (sendAction initialState .BACKWARD, false)
    ∧ actionCode .BACKWARD = 3
    ∧ onKeyPress initialState "Escape" = (initialState, true)
    ∧ onKeyPress initialState "q" = (initialState, false) :=
  key_to_action_table initialState "q" (by decide)

/-! ## Claim C9 -/

/-- C9: with the channel open and the local identity still unset
(undefined), sendAction does not reject the action: it builds the MOVE
message with playerId undefined and transmits it, and since
JSON.stringify drops undefined-valued fields the serialized text carries
no playerId field at all. -/
theorem sendAction_unset_identity_omits_playerId (st : GameState) (a : PlayerAction)
    (hopen : st.sockOpen = true) (hid : st.sockId = JsValue.undefined) :
    (sendAction st a).sent =
      st.sent ++ [jsonStringify (JsValue.obj
        [("type", JsValue.num 0), ("playerId", JsValue.undefined), ("action", JsValue.num (actionCode a))])]
    ∧ (sendAction st a).sent =
      st.sent ++ ["\x7b\"type\":0,\"action\":" ++ jsNumToString (actionCode a) ++ "\x7d"] := by
  cases a <;>
    exact ⟨by simp [sendAction, sendMessage, hopen, hid],
      by simp [sendAction, sendMessage, hopen, hid]; rfl⟩

/-- C9 witness: the unset-identity send evaluated for the forward action
from the freshly opened state. -/
theorem sendAction_unset_identity_omits_playerId_witness :
    (sendAction (handleOpen initialState) .FORWARD).sent =
      (handleOpen initialState).sent ++ [jsonStringify (JsValue.obj
        [("type", JsValue.num 0), ("playerId", JsValue.undefined),
         ("action", JsValue.num (actionCode .FORWARD))])]
    ∧ (sendAction (handleOpen initialState) .FORWARD).sent =
      (handleOpen initialState).sent
        ++ ["\x7b\"type\":0,\"action\":" ++ jsNumToString (actionCode .FORWARD) ++ "\x7d"] :=
  sendAction_unset_identity_omits_playerId (handleOpen initialState) .FORWARD rfl rfl

/-! ## Claim C10 -/

/-- C10: the render pass is read-only with respect to synchronization
state: drawScene can resize the canvas, but it leaves the position cache
and the local identity exactly unchanged, for every state and every frame
geometry. -/
theorem drawScene_preserves_cache_and_identity (st : GameState) (dpr rectW rectH : ℚ) :
    (drawScene st dpr rectW rectH).fst.positions = st.positions
    ∧ (drawScene st dpr rectW rectH).fst.sockId = st.sockId := by
  unfold drawScene resizeCanvasToDisplaySize
  cases hprog : st.program with
  | false => simp
  | true =>
    simp only [Bool.not_true, Bool.false_eq_true, if_false]
    split <;> exact ⟨rfl, rfl⟩
